import Mathlib

/-!
Shallow embedding of the WaterLogger time-windowed aggregation and
navigation core.

Time is modelled as milliseconds since the Unix epoch (`Int`), with the
local time zone fixed to UTC offset 0 and no daylight-saving transitions,
so the JavaScript `Date` mutators `setHours(0,0,0,0)`,
`setHours(23,59,59,999)` and `setDate` amount to pure arithmetic on the
millisecond value.  JavaScript arrays mutated in place are modelled as
functions from indices to bucket accumulators, updated functionally.
Numeric entry fields are modelled as `Rat` (JavaScript numbers used here
only through +, /, comparisons on exact decimal data).

Sources embedded:
  - src/components/chart/chartUtils.ts  (groupEntriesByHour,
    groupEntriesByDay, processEntriesForChart)
  - src/app/(tabs)/index.tsx  (getWindowLength, window useMemo,
    dataBoundaries, canGoBack, canGoForward, handleBack, handleForward,
    entries filter, chartData useMemo)
-/

/-- Milliseconds in one day (24 * 60 * 60 * 1000). -/
def dayMs : Int := 86400000

/-- Milliseconds in one hour. -/
def hourMs : Int := 3600000

/-- Model of `d.setHours(0, 0, 0, 0)`: the midnight starting the calendar
day containing `t` (floor to a multiple of `dayMs`). -/
def startOfDay (t : Int) : Int := dayMs * (t / dayMs)

/-- Model of `d.setHours(23, 59, 59, 999)`: the last millisecond of the
calendar day containing `t`. -/
def endOfDay (t : Int) : Int := startOfDay t + (dayMs - 1)

/-- Model of `d.getHours()`: hour of day, 0..23. -/
def hourOfDay (t : Int) : Nat := ((t % dayMs) / hourMs).toNat

/-- Proleptic Gregorian civil date (year, month, day) of an epoch day
number; models the calendar arithmetic behind ECMAScript `getMonth` and
`getDate` at UTC offset 0. -/
def civilOfDay (z0 : Int) : Int × Nat × Nat :=
  let z : Int := z0 + 719468
  let era : Int := z / 146097
  let doe : Nat := (z - era * 146097).toNat
  let yoe : Nat := (doe - doe / 1460 + doe / 36524 - doe / 146096) / 365
  let doy : Nat := doe - (365 * yoe + yoe / 4 - yoe / 100)
  let mp : Nat := (5 * doy + 2) / 153
  let dom : Nat := doy - (153 * mp + 2) / 5 + 1
  let m : Nat := if mp < 10 then mp + 3 else mp - 9
  (era * 400 + (yoe : Int) + (if m ≤ 2 then 1 else 0), m, dom)

/-- Model of `d.getMonth() + 1` for the instant `t`: month 1..12. -/
def monthOf (t : Int) : Nat := (civilOfDay (t / dayMs)).2.1

/-- Model of `d.getDate()` for the instant `t`: day of month 1..31. -/
def dayOfMonth (t : Int) : Nat := (civilOfDay (t / dayMs)).2.2

/-- Calendar-day bucket label from chartUtils.ts line 119:
`${d.getMonth() + 1}/${d.getDate()}`. -/
def dayLabel (t : Int) : String := toString (monthOf t) ++ "/" ++ toString (dayOfMonth t)

/-- One water-log observation (chartUtils.ts `WaterLogEntry`, keeping the
fields the aggregation core reads). -/
structure WaterLogEntry where
  amountCups : Rat
  fatigue : Rat
  timestamp : Int
deriving DecidableEq

/-- Chart output (chartUtils.ts `ChartData`). -/
structure ChartData where
  labels : List String
  waterData : List Rat
  fatigueData : List Rat
deriving DecidableEq

/-- Bucket accumulator `{ waterTotal, fatigueCount, fatigueSum }` shared by
the hour and day aggregations. -/
structure BucketAcc where
  waterTotal : Rat
  fatigueCount : Nat
  fatigueSum : Rat
deriving DecidableEq

/-- Freshly initialized bucket. -/
def emptyAcc : BucketAcc := { waterTotal := 0, fatigueCount := 0, fatigueSum := 0 }

/-- Adding one entry into a bucket (the three `+=` statements of the
aggregation loops). -/
def addAcc (b : BucketAcc) (e : WaterLogEntry) : BucketAcc :=
  { waterTotal := b.waterTotal + e.amountCups
    fatigueCount := b.fatigueCount + 1
    fatigueSum := b.fatigueSum + e.fatigue }

/-- The `fatigueCount ? fatigueSum / fatigueCount : 0` average. -/
def avgOf (b : BucketAcc) : Rat :=
  if b.fatigueCount ≠ 0 then b.fatigueSum / (b.fatigueCount : Rat) else 0

/-- Hour of an entry, `date.getHours()` on its timestamp. -/
def entryHour (e : WaterLogEntry) : Nat := hourOfDay e.timestamp

/-- One iteration of the `groupEntriesByHour` loop: the mutable 24-bucket
array is modelled as a function from index to bucket. -/
def hourStep (buckets : Nat → BucketAcc) (e : WaterLogEntry) : Nat → BucketAcc :=
  fun j => if j = entryHour e then addAcc (buckets j) e else buckets j

/-- Hour label from chartUtils.ts lines 39-43: 12-hour clock,
`i % 12 || 12` followed by AM for 0..11 and PM for 12..23. -/
def hourLabel (i : Nat) : String :=
  toString (if i % 12 = 0 then 12 else i % 12) ++ (if i < 12 then "AM" else "PM")

/-- chartUtils.ts `groupEntriesByHour`. -/
def groupEntriesByHour (entries : List WaterLogEntry) : ChartData :=
  let buckets := entries.foldl hourStep (fun _ => emptyAcc)
  { labels := (List.range 24).map hourLabel
    waterData := (List.range 24).map (fun i => (buckets i).waterTotal)
    fatigueData := (List.range 24).map (fun i => avgOf (buckets i)) }

/-- The `entries.reduce` of chartUtils.ts lines 64-68: keep `prev` when
`prevDate >= currDate`, otherwise take `curr`; `e` is the first element
and `es` the rest. -/
def latestEntry (e : WaterLogEntry) (es : List WaterLogEntry) : WaterLogEntry :=
  es.foldl (fun prev curr => if curr.timestamp ≤ prev.timestamp then prev else curr) e

/-- The `if (days <= 0) days = 1` guard of chartUtils.ts line 59. -/
def normDays (days : Int) : Int := if days ≤ 0 then 1 else days

/-- chartUtils.ts lines 61-75: window end is end-of-day of the latest
entry timestamp, or of the current time when `entries` is empty. -/
def gbdWindowEnd (entries : List WaterLogEntry) (now : Int) : Int :=
  match entries with
  | [] => endOfDay now
  | e :: es => endOfDay (latestEntry e es).timestamp

/-- chartUtils.ts lines 78-83: start of the window, midnight `days - 1`
days before the window end. -/
def gbdWindowStart (entries : List WaterLogEntry) (days now : Int) : Int :=
  startOfDay (gbdWindowEnd entries now) - (normDays days - 1) * dayMs

/-- Bucket index of an entry, chartUtils.ts line 107:
`Math.floor((entryDate - windowStart) / (24*60*60*1000))`. -/
def dayIndexOf (ws : Int) (e : WaterLogEntry) : Int :=
  (e.timestamp - ws) / dayMs

/-- One iteration of the `groupEntriesByDay` aggregation loop
(chartUtils.ts lines 105-114), the bucket array as a function. -/
def dayStep (ws : Int) (d : Nat) (buckets : Nat → BucketAcc) (e : WaterLogEntry) : Nat → BucketAcc :=
  let idx := dayIndexOf ws e
  if 0 ≤ idx ∧ idx < (d : Int) then
    fun j => if (j : Int) = idx then addAcc (buckets j) e else buckets j
  else buckets

/-- chartUtils.ts `groupEntriesByDay`; `now` models the `new Date()` read
in the empty-entries branch. -/
def groupEntriesByDay (entries : List WaterLogEntry) (days now : Int) : ChartData :=
  let d : Nat := (normDays days).toNat
  let ws := gbdWindowStart entries days now
  let buckets := entries.foldl (dayStep ws d) (fun _ => emptyAcc)
  { labels := (List.range d).map (fun i : Nat => dayLabel (ws + (i : Int) * dayMs))
    waterData := (List.range d).map (fun i => (buckets i).waterTotal)
    fatigueData := (List.range d).map (fun i => avgOf (buckets i)) }

/-- The four time spans of index.tsx `TimeSpan`. -/
inductive Span where
  | day
  | week
  | twoweeks
  | month
deriving DecidableEq

/-- chartUtils.ts `processEntriesForChart`; `now` models the ambient clock
read by `groupEntriesByDay` on empty input. -/
def processEntriesForChart (entries : List WaterLogEntry) (timespan : Span) (now : Int) : ChartData :=
  match timespan with
  | Span.day => groupEntriesByHour entries
  | Span.week => groupEntriesByDay entries 7 now
  | Span.twoweeks => groupEntriesByDay entries 14 now
  | Span.month => groupEntriesByDay entries 30 now

/-- index.tsx `getWindowLength`. -/
def getWindowLength (timespan : Span) : Int :=
  match timespan with
  | Span.day => 1
  | Span.week => 7
  | Span.twoweeks => 14
  | Span.month => 30

/-- index.tsx lines 96-106, the `windowStart` / `windowEnd` useMemo:
end is the anchor normalized to 23:59:59.999, start is `windowLength - 1`
days earlier normalized to 00:00:00.000.  Returned as (start, end). -/
def computeWindow (anchor : Int) (timespan : Span) : Int × Int :=
  let e := endOfDay anchor
  let s := startOfDay (e - (getWindowLength timespan - 1) * dayMs)
  (s, e)

/-- index.tsx lines 118-131, the `dataBoundaries` useMemo: the scan starts
from `new Date()` (the current time) and keeps the smaller timestamp, and
the empty snapshot returns the current time as well. -/
def dataBoundaries (fullData : List WaterLogEntry) (now : Int) : Int :=
  if fullData.isEmpty then now
  else
    fullData.foldl
      (fun earliest entry => if entry.timestamp < earliest then entry.timestamp else earliest)
      now

/-- index.tsx lines 148-158, `canGoBack`. -/
def canGoBack (fullData : List WaterLogEntry) (now anchor : Int) (timespan : Span) : Bool :=
  if fullData.isEmpty then false
  else
    let nextStart := (computeWindow anchor timespan).1 - getWindowLength timespan * dayMs
    decide (dataBoundaries fullData now ≤ nextStart)

/-- index.tsx lines 161-169, `canGoForward`: `currentDate < now` with `now`
normalized to end of day. -/
def canGoForward (now anchor : Int) : Bool :=
  decide (anchor < endOfDay now)

/-- index.tsx lines 172-195, `handleBack` (retreat): step the anchor back
one window length, clamping when the candidate window would start before
the computed earliest bound. -/
def handleBack (fullData : List WaterLogEntry) (now anchor : Int) (timespan : Span) : Int :=
  let len := getWindowLength timespan
  let newDate := anchor - len * dayMs
  let newWindowStart := startOfDay (newDate - (len - 1) * dayMs)
  if newWindowStart < dataBoundaries fullData now then
    endOfDay (dataBoundaries fullData now + (len - 1) * dayMs)
  else newDate

/-- index.tsx lines 198-216, `handleForward` (advance): step the anchor
forward one window length, clamping at end-of-day of the current time. -/
def handleForward (now anchor : Int) (timespan : Span) : Int :=
  let newDate := anchor + getWindowLength timespan * dayMs
  if endOfDay now < newDate then endOfDay now else newDate

/-- index.tsx lines 109-115, the `entries` useMemo: the snapshot filtered
to the current window, inclusive on both ends. -/
def entriesInWindow (fullData : List WaterLogEntry) (anchor : Int) (timespan : Span) : List WaterLogEntry :=
  fullData.filter fun e =>
    decide ((computeWindow anchor timespan).1 ≤ e.timestamp) &&
      decide (e.timestamp ≤ (computeWindow anchor timespan).2)

/-- index.tsx lines 232-239: the placeholder chart returned when the
filtered window is empty. -/
def demoChartData : ChartData :=
  { labels := ["Mon", "Tue", "Wed", "Thu", "Fri", "Sat", "Sun"]
    waterData := [3/2, 11/5, 9/5, 0, 5/2, 6/5, 2]
    fatigueData := [3, 2, 4, 5, 2, 1, 3] }

/-- index.tsx lines 231-241, the `chartData` useMemo: demo data on an
empty window, otherwise the aggregation of the filtered entries. -/
def chartDataOf (fullData : List WaterLogEntry) (anchor : Int) (timespan : Span) (now : Int) : ChartData :=
  let entries := entriesInWindow fullData anchor timespan
  if entries.isEmpty then demoChartData else processEntriesForChart entries timespan now

/-- Bucket count per span as stated by the spec: 24 hour buckets for Day,
otherwise one bucket per day of the window. -/
def bucketCount (timespan : Span) : Nat :=
  match timespan with
  | Span.day => 24
  | Span.week => 7
  | Span.twoweeks => 14
  | Span.month => 30

/-- Maximum timestamp of the non-empty list `e :: es` (specification-side
formulation used to characterize `latestEntry`). -/
def maxTimestamp (e : WaterLogEntry) (es : List WaterLogEntry) : Int :=
  es.foldl (fun a c => max a c.timestamp) e.timestamp

/-- The spec's `EarliestBound` / `earliestOf`: minimum timestamp of the
snapshot, or none when it is empty (spec section 4.2), stated here to be
compared against the implementation's `dataBoundaries`. -/
def earliestOfSpec (fullData : List WaterLogEntry) : Option Int :=
  match fullData with
  | [] => none
  | e :: es => some (es.foldl (fun a c => min a c.timestamp) e.timestamp)

/-- The bucket an entry is counted into for a given span: its local hour
for Day, its day index from the data-derived window start otherwise. -/
def bucketKey (timespan : Span) (entries : List WaterLogEntry) (now : Int) (e : WaterLogEntry) : Int :=
  match timespan with
  | Span.day => (entryHour e : Int)
  | _ => dayIndexOf (gbdWindowStart entries (getWindowLength timespan) now) e

example : dayLabel 0 = "1/1" := by decide

example : dayLabel (9 * dayMs) = "1/10" := by decide

example : hourLabel 0 = "12AM" := by decide

example : hourLabel 13 = "1PM" := by decide


/-! Arithmetic facts about the day normalizations. -/

/-- Day arithmetic commutes with midnight normalization: adding whole days
then taking start of day is taking start of day then adding the days. -/
theorem startOfDay_add_mul (t n : Int) : startOfDay (t + n * dayMs) = startOfDay t + n * dayMs := by
  simp only [startOfDay, dayMs]
  omega

/-- Subtracting whole days commutes with midnight normalization. -/
theorem startOfDay_sub_mul (t n : Int) : startOfDay (t - n * dayMs) = startOfDay t - n * dayMs := by
  simp only [startOfDay, dayMs]
  omega

/-- Normalizing to end of day does not change the calendar day. -/
theorem startOfDay_endOfDay (t : Int) : startOfDay (endOfDay t) = startOfDay t := by
  simp only [startOfDay, endOfDay, dayMs]
  omega

/-- Midnight of the day of `t` is at or before `t`. -/
theorem startOfDay_le (t : Int) : startOfDay t ≤ t := by
  simp only [startOfDay, dayMs]
  omega

/-- The window start computed by `computeWindow` in closed form. -/
theorem computeWindow_fst (anchor : Int) (timespan : Span) :
    (computeWindow anchor timespan).1 = startOfDay anchor - (getWindowLength timespan - 1) * dayMs := by
  simp only [computeWindow, startOfDay, endOfDay, dayMs]
  cases timespan <;> simp only [getWindowLength] <;> omega

/-- The candidate window start recomputed inside `handleBack` agrees with
the window `computeWindow` derives from the candidate anchor. -/
theorem handleBack_start_eq (c : Int) (timespan : Span) :
    startOfDay (c - (getWindowLength timespan - 1) * dayMs) = (computeWindow c timespan).1 := by
  rw [computeWindow_fst, startOfDay_sub_mul]

/-! Facts about the aggregation folds. -/

/-- A bucket no entry of the list falls into is left untouched by the
hour-aggregation loop. -/
theorem foldl_hourStep_of_forall_ne (l : List WaterLogEntry) (f : Nat → BucketAcc) (i : Nat)
    (h : ∀ e ∈ l, entryHour e ≠ i) : (l.foldl hourStep f) i = f i := by
  induction l generalizing f with
  | nil => rfl
  | cons e l ih =>
    rw [List.foldl_cons, ih _ fun x hx => h x (List.mem_cons_of_mem _ hx)]
    have hi : i ≠ entryHour e := fun hh => h e (List.mem_cons_self _ _) hh.symm
    simp [hourStep, hi]

/-- A bucket no entry of the list is indexed into is left untouched by the
day-aggregation loop. -/
theorem foldl_dayStep_of_forall_ne (l : List WaterLogEntry) (ws : Int) (d : Nat)
    (f : Nat → BucketAcc) (i : Nat)
    (h : ∀ e ∈ l, dayIndexOf ws e ≠ (i : Int)) : (l.foldl (dayStep ws d) f) i = f i := by
  induction l generalizing f with
  | nil => rfl
  | cons e l ih =>
    rw [List.foldl_cons, ih _ fun x hx => h x (List.mem_cons_of_mem _ hx)]
    have hi : (i : Int) ≠ dayIndexOf ws e := fun hh => h e (List.mem_cons_self _ _) hh.symm
    by_cases hr : 0 ≤ dayIndexOf ws e ∧ dayIndexOf ws e < (d : Int)
    · simp [dayStep, hr, hi]
    · simp [dayStep, hr]

/-- The `reduce` of chartUtils.ts picks an entry carrying the maximum
timestamp of the list. -/
theorem latestEntry_timestamp (es : List WaterLogEntry) (e : WaterLogEntry) :
    (latestEntry e es).timestamp = maxTimestamp e es := by
  induction es generalizing e with
  | nil => rfl
  | cons c cs ih =>
    show (latestEntry (if c.timestamp ≤ e.timestamp then e else c) cs).timestamp
        = List.foldl (fun a x => max a x.timestamp) (max e.timestamp c.timestamp) cs
    rw [ih]
    unfold maxTimestamp
    by_cases h : c.timestamp ≤ e.timestamp
    · simp [h, max_eq_left h]
    · simp [h, max_eq_right (le_of_not_le h)]

/-- The scan of `dataBoundaries` computes the minimum of its initial value
and the timestamps of the list. -/
theorem foldl_minScan (l : List WaterLogEntry) (a : Int) :
    (l.foldl (fun earliest entry => if entry.timestamp < earliest then entry.timestamp else earliest) a) ≤ a ∧
    (∀ e ∈ l, (l.foldl (fun earliest entry => if entry.timestamp < earliest then entry.timestamp else earliest) a) ≤ e.timestamp) ∧
    ((l.foldl (fun earliest entry => if entry.timestamp < earliest then entry.timestamp else earliest) a) = a ∨
      (l.foldl (fun earliest entry => if entry.timestamp < earliest then entry.timestamp else earliest) a) ∈ l.map fun e => e.timestamp) := by
  induction l generalizing a with
  | nil => exact ⟨le_refl a, by simp, Or.inl rfl⟩
  | cons e l ih =>
    rw [List.foldl_cons]
    obtain ⟨h1, h2, h3⟩ := ih (if e.timestamp < a then e.timestamp else a)
    have hle : (if e.timestamp < a then e.timestamp else a) ≤ a := by split <;> omega
    have hlee : (if e.timestamp < a then e.timestamp else a) ≤ e.timestamp := by split <;> omega
    refine ⟨h1.trans hle, ?_, ?_⟩
    · intro x hx
      rcases List.mem_cons.mp hx with hx | hx
      · subst hx
        exact h1.trans hlee
      · exact h2 x hx
    · rcases h3 with h3 | h3
      · rw [h3]
        by_cases h : e.timestamp < a
        · right
          simp [h]
        · left
          simp [h]
      · right
        exact List.mem_cons_of_mem _ h3

/-- The `days <= 0` guard does not fire on positive day counts. -/
theorem normDays_of_pos (days : Int) (hd : 0 < days) : normDays days = days := by
  simp only [normDays]
  omega

/-- C8: for every anchor instant and span, the computed window ends at
23:59:59.999 of the anchor's calendar day, starts `windowLength - 1` days
earlier at 00:00:00.000, satisfies start ≤ end, and covers exactly
`windowLength(span)` calendar days. -/
theorem computeWindow_spec (anchor : Int) (timespan : Span) :
    (computeWindow anchor timespan).2 = endOfDay anchor ∧
    (computeWindow anchor timespan).1 = startOfDay anchor - (getWindowLength timespan - 1) * dayMs ∧
    (computeWindow anchor timespan).1 % dayMs = 0 ∧
    (computeWindow anchor timespan).2 % dayMs = dayMs - 1 ∧
    (computeWindow anchor timespan).1 ≤ (computeWindow anchor timespan).2 ∧
    (computeWindow anchor timespan).2 / dayMs - (computeWindow anchor timespan).1 / dayMs
      = getWindowLength timespan - 1 := by
  have h1 : (computeWindow anchor timespan).2 = endOfDay anchor := rfl
  have h2 := computeWindow_fst anchor timespan
  have hlen : 1 ≤ getWindowLength timespan := by cases timespan <;> decide
  refine ⟨h1, h2, ?_, ?_, ?_, ?_⟩
  · rw [h2]
    simp only [startOfDay, endOfDay, dayMs]
    omega
  · rw [h1]
    simp only [startOfDay, endOfDay, dayMs]
    omega
  · rw [h1, h2]
    simp only [startOfDay, endOfDay, dayMs] at hlen ⊢
    omega
  · rw [h1, h2]
    simp only [startOfDay, endOfDay, dayMs] at hlen ⊢
    omega

/-- Shape of the day aggregation for a positive day count: all three
output lists have one element per day, and a day bucket hit by no entry
reports zero water and zero fatigue. -/
theorem groupEntriesByDay_shape (entries : List WaterLogEntry) (days now : Int) (hd : 0 < days) :
    ((groupEntriesByDay entries days now).labels.length = days.toNat ∧
     (groupEntriesByDay entries days now).waterData.length = days.toNat ∧
     (groupEntriesByDay entries days now).fatigueData.length = days.toNat) ∧
    ∀ i : Nat, i < days.toNat →
      (∀ e ∈ entries, dayIndexOf (gbdWindowStart entries days now) e ≠ (i : Int)) →
      (groupEntriesByDay entries days now).waterData[i]? = some 0 ∧
      (groupEntriesByDay entries days now).fatigueData[i]? = some 0 := by
  simp only [groupEntriesByDay, normDays_of_pos days hd]
  refine ⟨⟨?_, ?_, ?_⟩, ?_⟩
  · rw [List.length_map, List.length_range]
  · rw [List.length_map, List.length_range]
  · rw [List.length_map, List.length_range]
  intro i hi hnone
  have hb := foldl_dayStep_of_forall_ne entries (gbdWindowStart entries days now) days.toNat
    (fun _ => emptyAcc) i hnone
  constructor
  · rw [List.getElem?_map, List.getElem?_range hi]
    simp only [Option.map_some']
    rw [hb]
    rfl
  · rw [List.getElem?_map, List.getElem?_range hi]
    simp only [Option.map_some']
    rw [hb]
    rfl

/-- Shape of the hour aggregation: 24 buckets always, and an hour bucket
hit by no entry reports zero water and zero fatigue. -/
theorem groupEntriesByHour_shape (entries : List WaterLogEntry) :
    ((groupEntriesByHour entries).labels.length = 24 ∧
     (groupEntriesByHour entries).waterData.length = 24 ∧
     (groupEntriesByHour entries).fatigueData.length = 24) ∧
    ∀ i : Nat, i < 24 →
      (∀ e ∈ entries, entryHour e ≠ i) →
      (groupEntriesByHour entries).waterData[i]? = some 0 ∧
      (groupEntriesByHour entries).fatigueData[i]? = some 0 := by
  simp only [groupEntriesByHour]
  refine ⟨⟨?_, ?_, ?_⟩, ?_⟩
  · rw [List.length_map, List.length_range]
  · rw [List.length_map, List.length_range]
  · rw [List.length_map, List.length_range]
  intro i hi hnone
  have hb := foldl_hourStep_of_forall_ne entries (fun _ => emptyAcc) i hnone
  constructor
  · rw [List.getElem?_map, List.getElem?_range hi]
    simp only [Option.map_some']
    rw [hb]
    rfl
  · rw [List.getElem?_map, List.getElem?_range hi]
    simp only [Option.map_some']
    rw [hb]
    rfl

/-- C2: for every input observation collection (including the empty one)
and every span, the aggregation output's labels, water series and fatigue
series all have exactly 24 elements for the Day span and exactly
`windowLength(span)` elements otherwise, and a bucket into which no
observation falls still appears, with water sum 0 and fatigue average 0. -/
theorem series_length_and_zero_fill (entries : List WaterLogEntry) (timespan : Span) (now : Int) :
    ((processEntriesForChart entries timespan now).labels.length = bucketCount timespan ∧
     (processEntriesForChart entries timespan now).waterData.length = bucketCount timespan ∧
     (processEntriesForChart entries timespan now).fatigueData.length = bucketCount timespan) ∧
    ∀ i : Nat, i < bucketCount timespan →
      (∀ e ∈ entries, bucketKey timespan entries now e ≠ (i : Int)) →
      (processEntriesForChart entries timespan now).waterData[i]? = some 0 ∧
      (processEntriesForChart entries timespan now).fatigueData[i]? = some 0 := by
  cases timespan with
  | day =>
    obtain ⟨hlen, hzero⟩ := groupEntriesByHour_shape entries
    refine ⟨hlen, ?_⟩
    intro i hi hkey
    refine hzero i hi ?_
    intro e he hh
    refine hkey e he ?_
    show (entryHour e : Int) = (i : Int)
    rw [hh]
  | week => exact groupEntriesByDay_shape entries 7 now (by decide)
  | twoweeks => exact groupEntriesByDay_shape entries 14 now (by decide)
  | month => exact groupEntriesByDay_shape entries 30 now (by decide)

/-- Witness for `series_length_and_zero_fill` at a concrete input: one
entry at hour 5, Day span, bucket 3 is empty and reports zeros. -/
theorem series_length_and_zero_fill_example :
    (processEntriesForChart [{ amountCups := 1, fatigue := 2, timestamp := 5 * hourMs }]
        Span.day 0).waterData[3]? = some 0 ∧
    (processEntriesForChart [{ amountCups := 1, fatigue := 2, timestamp := 5 * hourMs }]
        Span.day 0).fatigueData[3]? = some 0 :=
  (series_length_and_zero_fill [{ amountCups := 1, fatigue := 2, timestamp := 5 * hourMs }]
    Span.day 0).2 3 (by decide) (by decide)

/-- Labels of the day aggregation on a non-empty list: one label per day,
in ascending order, anchored at the calendar day of the maximum timestamp
of the supplied entries. -/
theorem groupEntriesByDay_labels_cons (e : WaterLogEntry) (es : List WaterLogEntry)
    (days now : Int) (hd : 0 < days) :
    (groupEntriesByDay (e :: es) days now).labels =
      (List.range days.toNat).map (fun i : Nat =>
        dayLabel (startOfDay (maxTimestamp e es) - (days - 1) * dayMs + (i : Int) * dayMs)) := by
  have hws : gbdWindowStart (e :: es) days now
      = startOfDay (maxTimestamp e es) - (days - 1) * dayMs := by
    simp only [gbdWindowStart, gbdWindowEnd, startOfDay_endOfDay, latestEntry_timestamp,
      normDays_of_pos days hd]
  show (List.range (normDays days).toNat).map
      (fun i : Nat => dayLabel (gbdWindowStart (e :: es) days now + (i : Int) * dayMs)) = _
  rw [hws, normDays_of_pos days hd]

/-- Labels of the day aggregation on the empty list: anchored at the
calendar day of the current time. -/
theorem groupEntriesByDay_labels_nil (days now : Int) (hd : 0 < days) :
    (groupEntriesByDay [] days now).labels =
      (List.range days.toNat).map (fun i : Nat =>
        dayLabel (startOfDay now - (days - 1) * dayMs + (i : Int) * dayMs)) := by
  have hws : gbdWindowStart [] days now = startOfDay now - (days - 1) * dayMs := by
    simp only [gbdWindowStart, gbdWindowEnd, startOfDay_endOfDay, normDays_of_pos days hd]
  show (List.range (normDays days).toNat).map
      (fun i : Nat => dayLabel (gbdWindowStart [] days now + (i : Int) * dayMs)) = _
  rw [hws, normDays_of_pos days hd]

/-- C1 (counterexample): with a single observation on Jan 16 1970 noon and
a Week window anchored on Jan 20 1970, the chart pipeline labels the days
Jan 10 .. Jan 16 (anchored at the latest entry), not the navigation
window's days Jan 14 .. Jan 20, refuting the claim that bucket `i` is
labelled with `window.start + i` days. -/
theorem chart_labels_not_window_anchored :
    (chartDataOf [{ amountCups := 1, fatigue := 3, timestamp := 15 * dayMs + 12 * hourMs }]
        (19 * dayMs + 12 * hourMs) Span.week 0).labels ≠
      (List.range 7).map (fun i : Nat =>
        dayLabel ((computeWindow (19 * dayMs + 12 * hourMs) Span.week).1 + (i : Int) * dayMs)) := by
  decide

/-- C1 (amended): for every non-Day span and non-empty entry list, the
calendar-day aggregation produces exactly `windowLength(span)` buckets,
one per calendar day in ascending order, labelled `month/day` with month
and day numbered from 1, but anchored so that the **last** bucket is the
calendar day of the latest supplied entry: bucket `i` is labelled with the
day of `startOfDay(maxTimestamp) - (windowLength - 1 - i)` days.  A
caller's navigation window can influence the labels only through which
entries are passed in. -/
theorem chart_labels_data_anchored (e : WaterLogEntry) (es : List WaterLogEntry)
    (timespan : Span) (now : Int) (h : timespan ≠ Span.day) :
    (processEntriesForChart (e :: es) timespan now).labels =
      (List.range (bucketCount timespan)).map (fun i : Nat =>
        dayLabel (startOfDay (maxTimestamp e es) - ((bucketCount timespan : Int) - 1) * dayMs
          + (i : Int) * dayMs)) := by
  cases timespan with
  | day => exact absurd rfl h
  | week => exact groupEntriesByDay_labels_cons e es 7 now (by decide)
  | twoweeks => exact groupEntriesByDay_labels_cons e es 14 now (by decide)
  | month => exact groupEntriesByDay_labels_cons e es 30 now (by decide)

/-- Witness for `chart_labels_data_anchored` at a concrete input. -/
theorem chart_labels_data_anchored_example :
    (processEntriesForChart [{ amountCups := 1, fatigue := 1, timestamp := 0 }]
        Span.week 12345).labels =
      (List.range (bucketCount Span.week)).map (fun i : Nat =>
        dayLabel (startOfDay (maxTimestamp { amountCups := 1, fatigue := 1, timestamp := 0 } [])
          - ((bucketCount Span.week : Int) - 1) * dayMs + (i : Int) * dayMs)) :=
  chart_labels_data_anchored { amountCups := 1, fatigue := 1, timestamp := 0 } []
    Span.week 12345 (by decide)

/-- C10: `groupEntriesByDay` takes no window argument and anchors its
bucket range to the data itself: on the empty list the buckets end at the
calendar day of the current time, and on a non-empty list they end at the
calendar day of the maximum timestamp among the entries, the first bucket
lying `days - 1` days earlier.  The right-hand sides below mention no
caller-side window: a navigation window can influence the output only
through which entries are passed in. -/
theorem groupEntriesByDay_window_from_data (days now : Int) (hd : 0 < days) :
    ((groupEntriesByDay [] days now).labels =
      (List.range days.toNat).map (fun i : Nat =>
        dayLabel (startOfDay now - (days - 1) * dayMs + (i : Int) * dayMs))) ∧
    ∀ (e : WaterLogEntry) (es : List WaterLogEntry),
      (groupEntriesByDay (e :: es) days now).labels =
        (List.range days.toNat).map (fun i : Nat =>
          dayLabel (startOfDay (maxTimestamp e es) - (days - 1) * dayMs + (i : Int) * dayMs)) :=
  ⟨groupEntriesByDay_labels_nil days now hd,
   fun e es => groupEntriesByDay_labels_cons e es days now hd⟩

/-- Witness for `groupEntriesByDay_window_from_data` at a concrete input:
seven buckets ending on the day of the single entry. -/
theorem groupEntriesByDay_window_from_data_example :
    (groupEntriesByDay [{ amountCups := 2, fatigue := 4, timestamp := 10 * dayMs }] 7 0).labels =
      (List.range (7 : Int).toNat).map (fun i : Nat =>
        dayLabel (startOfDay (maxTimestamp { amountCups := 2, fatigue := 4, timestamp := 10 * dayMs } [])
          - ((7 : Int) - 1) * dayMs + (i : Int) * dayMs)) :=
  (groupEntriesByDay_window_from_data 7 0 (by decide)).2
    { amountCups := 2, fatigue := 4, timestamp := 10 * dayMs } []

/-- Retreat in closed form: the clamp condition is exactly that the window
of the candidate anchor would start before the computed earliest bound. -/
theorem handleBack_eq (fullData : List WaterLogEntry) (now anchor : Int) (timespan : Span) :
    handleBack fullData now anchor timespan =
      if (computeWindow (anchor - getWindowLength timespan * dayMs) timespan).1 <
          dataBoundaries fullData now
      then endOfDay (dataBoundaries fullData now + (getWindowLength timespan - 1) * dayMs)
      else anchor - getWindowLength timespan * dayMs := by
  simp only [handleBack]
  rw [handleBack_start_eq]

/-- Advance in closed form. -/
theorem handleForward_eq (now anchor : Int) (timespan : Span) :
    handleForward now anchor timespan =
      if endOfDay now < anchor + getWindowLength timespan * dayMs then endOfDay now
      else anchor + getWindowLength timespan * dayMs := rfl

/-- Every span has a window length of at least one day. -/
theorem getWindowLength_pos (timespan : Span) : 1 ≤ getWindowLength timespan := by
  cases timespan <;> decide

/-- C3 (counterexample): earliest observation at Jan 10 1970 10:00, Week
span, anchor at end of Jan 17 1970.  One retreat clamps (the candidate
window would start Jan 4, before the bound), but the resulting window's
start is Jan 10 00:00:00.000, which is not the earliest bound itself. -/
theorem retreat_clamp_start_not_exact :
    ((computeWindow (endOfDay (16 * dayMs) - 7 * dayMs) Span.week).1 <
        dataBoundaries [{ amountCups := 1, fatigue := 1, timestamp := 9 * dayMs + 10 * hourMs }]
          (23 * dayMs + 12 * hourMs)) ∧
    (computeWindow
        (handleBack [{ amountCups := 1, fatigue := 1, timestamp := 9 * dayMs + 10 * hourMs }]
          (23 * dayMs + 12 * hourMs) (endOfDay (16 * dayMs)) Span.week)
        Span.week).1 ≠
      dataBoundaries [{ amountCups := 1, fatigue := 1, timestamp := 9 * dayMs + 10 * hourMs }]
        (23 * dayMs + 12 * hourMs) := by
  decide

/-- C3 (amended): when the candidate window one step back would start
before the computed earliest bound, retreat sets the anchor to the bound
plus `windowLength - 1` days normalized to end of day, and the resulting
window's start is the 00:00:00.000 of the bound's calendar day (equal to
the bound itself only when the bound falls on midnight); otherwise the
anchor moves to the candidate anchor. -/
theorem retreat_clamp_characterization (fullData : List WaterLogEntry) (now anchor : Int)
    (timespan : Span) :
    ((computeWindow (anchor - getWindowLength timespan * dayMs) timespan).1 <
        dataBoundaries fullData now →
      (handleBack fullData now anchor timespan =
          endOfDay (dataBoundaries fullData now + (getWindowLength timespan - 1) * dayMs) ∧
        (computeWindow (handleBack fullData now anchor timespan) timespan).1 =
          startOfDay (dataBoundaries fullData now))) ∧
    (¬ (computeWindow (anchor - getWindowLength timespan * dayMs) timespan).1 <
        dataBoundaries fullData now →
      handleBack fullData now anchor timespan = anchor - getWindowLength timespan * dayMs) := by
  constructor
  · intro h
    have hc : handleBack fullData now anchor timespan =
        endOfDay (dataBoundaries fullData now + (getWindowLength timespan - 1) * dayMs) := by
      rw [handleBack_eq, if_pos h]
    refine ⟨hc, ?_⟩
    rw [hc, computeWindow_fst, startOfDay_endOfDay, startOfDay_add_mul]
    ring
  · intro h
    rw [handleBack_eq, if_neg h]

/-- Witness for `retreat_clamp_characterization`: the clamp branch at a
concrete input. -/
theorem retreat_clamp_characterization_example :
    handleBack [{ amountCups := 1, fatigue := 1, timestamp := 9 * dayMs }] (23 * dayMs)
        (endOfDay (16 * dayMs)) Span.week =
      endOfDay (dataBoundaries [{ amountCups := 1, fatigue := 1, timestamp := 9 * dayMs }]
          (23 * dayMs) + (getWindowLength Span.week - 1) * dayMs) :=
  ((retreat_clamp_characterization [{ amountCups := 1, fatigue := 1, timestamp := 9 * dayMs }]
      (23 * dayMs) (endOfDay (16 * dayMs)) Span.week).1 (by decide)).1

/-- C4 (counterexample): with the spec's earliest bound (the minimum
timestamp of the snapshot) the stated equivalence fails when every
observation lies in the future of the current time: the code's bound is
clamped by the current time, so canGoBack returns true although one step
back would cross before the minimum timestamp. -/
theorem canGoBack_not_spec_bound :
    canGoBack [{ amountCups := 1, fatigue := 1, timestamp := 15 * dayMs }] 0
        (endOfDay (14 * dayMs)) Span.week = true ∧
    earliestOfSpec [{ amountCups := 1, fatigue := 1, timestamp := 15 * dayMs }]
        = some (15 * dayMs) ∧
    ¬ (15 * dayMs : Int) ≤
        (computeWindow (endOfDay (14 * dayMs)) Span.week).1 -
          getWindowLength Span.week * dayMs := by
  decide

/-- C4 (amended): canGoBack is true exactly when the snapshot is non-empty
and the current window's start minus `windowLength(span)` days is at or
after the computed earliest bound (the minimum of the current time and all
timestamps); in particular it is false for every empty snapshot. -/
theorem canGoBack_characterization (fullData : List WaterLogEntry) (now anchor : Int)
    (timespan : Span) :
    canGoBack fullData now anchor timespan = true ↔
      (fullData ≠ [] ∧
        dataBoundaries fullData now ≤
          (computeWindow anchor timespan).1 - getWindowLength timespan * dayMs) := by
  cases fullData with
  | nil => simp [canGoBack]
  | cons e es => simp [canGoBack]

/-- Witness for `canGoBack_characterization`: a concrete state where
stepping back stays inside the data. -/
theorem canGoBack_characterization_example :
    canGoBack [{ amountCups := 1, fatigue := 1, timestamp := 0 }] (20 * dayMs)
        (endOfDay (20 * dayMs)) Span.week = true :=
  (canGoBack_characterization [{ amountCups := 1, fatigue := 1, timestamp := 0 }]
      (20 * dayMs) (endOfDay (20 * dayMs)) Span.week).mpr ⟨by decide, by decide⟩

/-- C5 (counterexample): anchored at end-of-day of "now", advance clamps
(to the same anchor), but the following retreat still steps a full window
back, so the final anchor equals neither the original anchor nor the
clamped value. -/
theorem advance_retreat_clamped_mismatch :
    (endOfDay (100 * dayMs + 12 * hourMs) <
        endOfDay (100 * dayMs + 12 * hourMs) + getWindowLength Span.week * dayMs) ∧
    handleBack [{ amountCups := 1, fatigue := 1, timestamp := 12 * hourMs }]
        (100 * dayMs + 12 * hourMs)
        (handleForward (100 * dayMs + 12 * hourMs)
          (endOfDay (100 * dayMs + 12 * hourMs)) Span.week)
        Span.week ≠
      endOfDay (100 * dayMs + 12 * hourMs) := by
  decide

/-- C5 (amended): advance followed by retreat restores the original anchor
when neither step clamps; when the advance step does not clamp but the
retreat step clamps, the final anchor is the retreat clamp value; when the
advance step clamps to "now", the final anchor is whatever retreat yields
from end-of-day of "now" — not, in general, the clamped value. -/
theorem advance_retreat_roundtrip (fullData : List WaterLogEntry) (now anchor : Int)
    (timespan : Span) :
    (anchor + getWindowLength timespan * dayMs ≤ endOfDay now →
      ((dataBoundaries fullData now ≤ (computeWindow anchor timespan).1 →
          handleBack fullData now (handleForward now anchor timespan) timespan = anchor) ∧
       ((computeWindow anchor timespan).1 < dataBoundaries fullData now →
          handleBack fullData now (handleForward now anchor timespan) timespan =
            endOfDay (dataBoundaries fullData now + (getWindowLength timespan - 1) * dayMs)))) ∧
    (endOfDay now < anchor + getWindowLength timespan * dayMs →
      handleBack fullData now (handleForward now anchor timespan) timespan =
        handleBack fullData now (endOfDay now) timespan) := by
  constructor
  · intro hadv
    have hf : handleForward now anchor timespan = anchor + getWindowLength timespan * dayMs := by
      rw [handleForward_eq, if_neg (not_lt.mpr hadv)]
    have harg : anchor + getWindowLength timespan * dayMs - getWindowLength timespan * dayMs
        = anchor := by ring
    constructor
    · intro hret
      rw [hf, handleBack_eq, harg, if_neg (not_lt.mpr hret)]
    · intro hret
      rw [hf, handleBack_eq, harg, if_pos hret]
  · intro hadv
    have hf : handleForward now anchor timespan = endOfDay now := by
      rw [handleForward_eq, if_pos hadv]
    rw [hf]

/-- Witness for `advance_retreat_roundtrip`: an unclamped round trip
restores the anchor. -/
theorem advance_retreat_roundtrip_example :
    handleBack [{ amountCups := 1, fatigue := 1, timestamp := 0 }] (1000 * dayMs)
        (handleForward (1000 * dayMs) (endOfDay (500 * dayMs)) Span.week) Span.week =
      endOfDay (500 * dayMs) :=
  ((advance_retreat_roundtrip [{ amountCups := 1, fatigue := 1, timestamp := 0 }]
      (1000 * dayMs) (endOfDay (500 * dayMs)) Span.week).1 (by decide)).1 (by decide)

/-- C6 (counterexample): on an empty snapshot, retreat from end-of-day of
day 100 (with the clock at day 100 noon) clamps forward to end-of-day of
day 106 — the anchor changes, so retreat is not a no-op. -/
theorem retreat_empty_not_noop :
    handleBack [] (100 * dayMs + 12 * hourMs) (endOfDay (100 * dayMs)) Span.week ≠
      endOfDay (100 * dayMs) := by
  decide

/-- C6 (amended): on an empty snapshot the earliest bound falls back to
the current time, and retreat leaves the anchor unchanged exactly when the
anchor already equals end-of-day of `now + (windowLength - 1)` days (the
clamp fixed point); any other anchor is changed by the call.  The UI never
reaches this case because canGoBack is false for an empty snapshot. -/
theorem retreat_empty_fixed_point (now anchor : Int) (timespan : Span) :
    handleBack [] now anchor timespan = anchor ↔
      anchor = endOfDay (now + (getWindowLength timespan - 1) * dayMs) := by
  have hlen := getWindowLength_pos timespan
  have hb : dataBoundaries [] now = now := rfl
  rw [handleBack_eq, hb]
  constructor
  · intro h
    by_cases hc : (computeWindow (anchor - getWindowLength timespan * dayMs) timespan).1 < now
    · rw [if_pos hc] at h
      exact h.symm
    · rw [if_neg hc] at h
      exfalso
      have hD : (1 : Int) ≤ getWindowLength timespan := hlen
      simp only [dayMs] at h
      omega
  · intro h
    subst h
    have hc : (computeWindow
        (endOfDay (now + (getWindowLength timespan - 1) * dayMs) -
          getWindowLength timespan * dayMs) timespan).1 < now := by
      rw [computeWindow_fst, startOfDay_sub_mul, startOfDay_endOfDay, startOfDay_add_mul]
      have hsd := startOfDay_le now
      simp only [dayMs] at hsd ⊢
      omega
    rw [if_pos hc]

/-- Witness for `retreat_empty_fixed_point`: the clamp fixed point is
indeed left unchanged. -/
theorem retreat_empty_fixed_point_example :
    handleBack [] 0 (endOfDay ((getWindowLength Span.week - 1) * dayMs)) Span.week =
      endOfDay ((getWindowLength Span.week - 1) * dayMs) :=
  (retreat_empty_fixed_point 0 (endOfDay ((getWindowLength Span.week - 1) * dayMs))
      Span.week).mpr (by decide)

/-- C7 (counterexample): the boundary scan starts from the current time,
so a snapshot whose only observation lies one day in the future yields the
current time, not the minimum timestamp — and the empty snapshot yields
the current time, not "none". -/
theorem dataBoundaries_not_min_timestamp :
    (dataBoundaries [{ amountCups := 1, fatigue := 1, timestamp := dayMs }] 0 = 0 ∧
     earliestOfSpec [{ amountCups := 1, fatigue := 1, timestamp := dayMs }] = some dayMs ∧
     (0 : Int) ≠ dayMs) ∧
    (dataBoundaries [] 0 = 0 ∧ earliestOfSpec [] = none) := by
  decide

/-- C7 (amended): the boundary computation returns the minimum of the
current time and all snapshot timestamps: the result is at most the
current time, at most every timestamp, and is either the current time or
one of the timestamps.  For a snapshot whose timestamps are all at or
before the current time this is the minimum timestamp; for the empty
snapshot it is the current time, never "none".  The computation is a pure
fold over the snapshot and cannot mutate it. -/
theorem dataBoundaries_is_min_with_now (fullData : List WaterLogEntry) (now : Int) :
    dataBoundaries fullData now ≤ now ∧
    (∀ e ∈ fullData, dataBoundaries fullData now ≤ e.timestamp) ∧
    (dataBoundaries fullData now = now ∨
      dataBoundaries fullData now ∈ fullData.map fun e => e.timestamp) := by
  cases fullData with
  | nil => exact ⟨le_refl now, by simp, Or.inl rfl⟩
  | cons e es => exact foldl_minScan (e :: es) now

/-- Witness for `dataBoundaries_is_min_with_now`: the bound is below the
timestamp of a member of the snapshot. -/
theorem dataBoundaries_is_min_with_now_example :
    dataBoundaries [{ amountCups := 1, fatigue := 1, timestamp := 3 }] 10 ≤ 3 :=
  (dataBoundaries_is_min_with_now [{ amountCups := 1, fatigue := 1, timestamp := 3 }] 10).2.1
    { amountCups := 1, fatigue := 1, timestamp := 3 } (by decide)

/-- C9 (counterexample): the day aggregation reads the ambient clock when
the entry list is empty, so two calls with identical (entries, span)
inputs made at different times return different outputs — the function is
not deterministic in its documented inputs alone. -/
theorem aggregate_empty_clock_dependent :
    processEntriesForChart [] Span.week 0 ≠
      processEntriesForChart [] Span.week (40 * dayMs) := by
  decide

/-- C9 (amended): the aggregation is deterministic in (entries, span,
current time); for every non-empty entry list its output does not depend
on the current time at all, so calls with identical inputs at different
times agree.  (`computeWindow` reads no clock: it is a pure function of
anchor and span by construction.) -/
theorem aggregate_nonempty_clock_independent (e : WaterLogEntry) (es : List WaterLogEntry)
    (timespan : Span) (now1 now2 : Int) :
    processEntriesForChart (e :: es) timespan now1 =
      processEntriesForChart (e :: es) timespan now2 := by
  cases timespan <;> rfl
